import Mathlib

/-!
# ElectroKart backend: authentication routes

A shallow embedding of `src/backend/index.js`: the `User` and `otp` collections, the
auth middleware and the four `/api/auth` routes, followed by the properties of the
password login and of the one-time-passcode login.

Conventions of the embedding.

* A collection is the list of its documents in natural (insertion) order: `create`
  appends, `findOne` returns the first match and `deleteOne` removes the first match.
* Request body fields that reach a schema are strings, the type the schema casts
  them to. The `password` of the login route goes to `bcrypt.compare` as it came and
  is a JavaScript value (`JsValue`).
* Time is a number of seconds. `Date.now`, the draw of `Math.random`, the fresh
  `ObjectId`, the bcrypt salt and the outcome of `transporter.sendMail` are inputs of
  the route that uses them.
* `bcryptjs` and `jsonwebtoken` are parameters (`BcryptLib`, `JwtLib`); the argument
  checks with which they throw are part of the embedding (`bcryptCompare`, `jwtSign`,
  `jwtVerify`).
* Numbers are binary64: a draw of `Math.random` is a rational that is a binary64
  number, and the product and the sum of line 132 are rounded (`roundDouble`).
-/

namespace ElectroKart

/-! ## Environment and libraries -/

/-- The part of `process.env` the routes read. -/
structure Env where
  JWT_SECRET : Option String

/-- The template literal `${process.env.JWT_SECRET}` used by both `jwt.sign` calls:
an unset variable renders as the text `undefined`. -/
def Env.secretTemplate (env : Env) : String :=
  match env.JWT_SECRET with
  | some s => s
  | none => "undefined"

/-- The two functions of `bcryptjs` in use: `hash s rounds salt` (the salt is the
random draw made by the library) and `compare s hash`. -/
structure BcryptLib where
  hash : String → Nat → Nat → String
  compare : String → String → Bool

/-- The two functions of `jsonwebtoken` in use: `sign id secret expiresIn now` signs
the payload `{ id }`, and `verify token secret now` returns the `id` of the decoded
payload; each is `none` when the call throws. -/
structure JwtLib where
  sign : Nat → String → Nat → Nat → Option String
  verify : String → String → Nat → Option Nat

/-- A value of a JSON request body, or `undefined` for an absent field. -/
inductive JsValue where
  | undefined
  | null
  | boolean (b : Bool)
  | number (n : ℚ)
  | string (s : String)
  | object
deriving DecidableEq

/-- The operator `typeof`. -/
def JsValue.typeof : JsValue → String
  | .undefined => "undefined"
  | .null => "object"
  | .boolean _ => "boolean"
  | .number _ => "number"
  | .string _ => "string"
  | .object => "object"

/-! ## Documents -/

/-- A document of the `User` collection (`userSchema`). -/
structure User where
  _id : Nat
  name : String
  email : String
  password : String
deriving DecidableEq

/-- A document of the `otp` collection (`otpSchema`); `createdAt` defaults to the
time of creation. The `_id` of these documents is read by no route and is left out. -/
structure Otpdata where
  email : String
  otp : String
  createdAt : Nat
deriving DecidableEq

/-- The `error.message` of an exception reaching a `catch` block. -/
inductive Failure where
  | validation (paths : List String)
  | duplicateKey (path : String)
  | typeError
  | transport (message : String)
  | illegalArguments (s hash : String)
  | signing
deriving DecidableEq

/-- The JSON body of a response. -/
inductive Body where
  | message (message : String)
  | error (error : Failure)
  | registered (message : String) (user : User)
  | token (token : String)
  | otpSent (message : String) (newotp : Otpdata)
  | otpVerified (message : String) (token : String)
deriving DecidableEq

/-- The answer of a route: status code and JSON body. -/
structure Response where
  status : Nat
  body : Body
deriving DecidableEq

/-! ## The `User` collection -/

/-- `User.findOne({ email })`. -/
def User.findOne (users : List User) (email : String) : Option User :=
  users.find? (fun u => u.email == email)

/-- `User.findById(id)`. -/
def User.findById (users : List User) (id : Nat) : Option User :=
  users.find? (fun u => u._id == id)

/-- The `required: true` validator of a string path: an empty string is rejected. -/
def requiredOk (s : String) : Bool := s != ""

/-- The paths of `userSchema` that fail validation. -/
def User.invalidPaths (name email password : String) : List String :=
  (if requiredOk name then [] else ["name"]) ++
  (if requiredOk email then [] else ["email"]) ++
  (if requiredOk password then [] else ["password"])

/-- `User.create({ name, email, password })` with `oid` the generated `ObjectId`:
validation first, then the insert, refused on a duplicate `_id` or (unique index) a
duplicate `email`. -/
def User.create (users : List User) (oid : Nat) (name email password : String) :
    Except Failure (User × List User) :=
  if User.invalidPaths name email password ≠ [] then
    .error (.validation (User.invalidPaths name email password))
  else if (User.findById users oid).isSome then .error (.duplicateKey "_id")
  else if (User.findOne users email).isSome then .error (.duplicateKey "email")
  else .ok (⟨oid, name, email, password⟩, users ++ [⟨oid, name, email, password⟩])

/-! ## The `otp` collection -/

/-- `Otpdata.findOne({ email })`. -/
def Otpdata.findOneByEmail (otps : List Otpdata) (email : String) : Option Otpdata :=
  otps.find? (fun d => d.email == email)

/-- `Otpdata.findOne({ otp })`. -/
def Otpdata.findOneByOtp (otps : List Otpdata) (otp : String) : Option Otpdata :=
  otps.find? (fun d => d.otp == otp)

/-- `Otpdata.deleteOne({ email })`. -/
def Otpdata.deleteOneByEmail (otps : List Otpdata) (email : String) : List Otpdata :=
  otps.eraseP (fun d => d.email == email)

/-- `Otpdata.deleteOne({ otp })`. -/
def Otpdata.deleteOneByOtp (otps : List Otpdata) (otp : String) : List Otpdata :=
  otps.eraseP (fun d => d.otp == otp)

/-- The paths of `otpSchema` that fail validation. -/
def Otpdata.invalidPaths (otp email : String) : List String :=
  (if requiredOk email then [] else ["email"]) ++
  (if requiredOk otp then [] else ["otp"])

/-- `Otpdata.create({ otp, email })` at time `now`: validation, then the insert,
refused by the unique index on `email`. -/
def Otpdata.create (otps : List Otpdata) (otp email : String) (now : Nat) :
    Except Failure (Otpdata × List Otpdata) :=
  if Otpdata.invalidPaths otp email ≠ [] then
    .error (.validation (Otpdata.invalidPaths otp email))
  else if (Otpdata.findOneByEmail otps email).isSome then .error (.duplicateKey "email")
  else .ok (⟨email, otp, now⟩, otps ++ [⟨email, otp, now⟩])

/-- The TTL index declared by `expires: 600` on `createdAt`: a pass of the database's
TTL monitor at time `now` removes the documents created 600 seconds ago or earlier.
The monitor runs in the background, on its own schedule. -/
def Otpdata.ttlSweep (now : Nat) (otps : List Otpdata) : List Otpdata :=
  otps.filter (fun d => decide (now < d.createdAt + 600))

/-! ## Middleware and routes -/

/-- `String.prototype.split` with a one-character separator, on the characters. -/
def splitChars (sep : Char) : List Char → List (List Char)
  | [] => [[]]
  | c :: cs =>
    if c = sep then [] :: splitChars sep cs
    else
      match splitChars sep cs with
      | [] => [[c]]
      | w :: ws => (c :: w) :: ws

/-- The expression `req.header('Authorization')?.split(' ')[1]`. -/
def bearerToken (authorization : Option String) : Option String :=
  match authorization with
  | none => none
  | some h => ((splitChars ' ' h.data).map String.mk)[1]?

/-- What the middleware does with the request: it answers, or it calls `next()` with
`req.user` set. -/
inductive MwResult where
  | respond (res : Response)
  | next (user : Option User)
deriving DecidableEq

/-- The call `bcrypt.compare(s, hash)`: an argument that is not a string rejects with
`Illegal arguments: <typeof s>, <typeof hash>`; the stored hash is a string. -/
def bcryptCompare (bcrypt : BcryptLib) (s : JsValue) (hash : String) :
    Except Failure Bool :=
  match s with
  | .string p => .ok (bcrypt.compare p hash)
  | v => .error (.illegalArguments v.typeof "string")

/-- The call `jwt.sign({ id }, secret, { expiresIn })`: an empty secret throws
(`secretOrPrivateKey must have a value`) before anything is signed. -/
def jwtSign (jwt : JwtLib) (id : Nat) (secret : String) (expiresIn now : Nat) :
    Option String :=
  if secret = "" then none else jwt.sign id secret expiresIn now

/-- The call `jwt.verify(token, process.env.JWT_SECRET)`: an unset or empty secret
throws (`secret or public key must be provided`). -/
def jwtVerify (jwt : JwtLib) (token : String) (secret : Option String) (now : Nat) :
    Option Nat :=
  match secret with
  | none => none
  | some s => if s = "" then none else jwt.verify token s now

/-- The middleware `authMiddleware`. -/
def authMiddleware (env : Env) (jwt : JwtLib) (users : List User)
    (authorization : Option String) (now : Nat) : MwResult :=
  match bearerToken authorization with
  | none => .respond ⟨401, .message "Unauthorized"⟩
  | some token =>
    if token = "" then .respond ⟨401, .message "Unauthorized"⟩
    else
      match jwtVerify jwt token env.JWT_SECRET now with
      | none => .respond ⟨401, .message "Invalid token"⟩
      | some id => .next (User.findById users id)

/-- The route `POST /api/auth/register`. -/
def register (bcrypt : BcryptLib) (users : List User) (oid salt : Nat)
    (name email password : String) : Response × List User :=
  let hashedPassword := bcrypt.hash password 10 salt
  match User.create users oid name email hashedPassword with
  | .ok (user, users') => (⟨201, .registered "User registered successfully" user⟩, users')
  | .error e => (⟨500, .error e⟩, users)

/-- The route `POST /api/auth/login`; what `bcrypt.compare` or `jwt.sign` throws is
answered 500 by the `catch` block. -/
def login (env : Env) (bcrypt : BcryptLib) (jwt : JwtLib) (users : List User)
    (email : String) (password : JsValue) (now : Nat) : Response :=
  match User.findOne users email with
  | none => ⟨401, .message "Invalid credentials"⟩
  | some user =>
    match bcryptCompare bcrypt password user.password with
    | .error e => ⟨500, .error e⟩
    | .ok isMatch =>
      if !isMatch then ⟨401, .message "Invalid credentials"⟩
      else
        match jwtSign jwt user._id env.secretTemplate 3600 now with
        | none => ⟨500, .error .signing⟩
        | some token => ⟨200, .token token⟩

/-- Rounding to the nearest integer, ties to even. -/
def rne (t : ℚ) : ℤ :=
  if t - ⌊t⌋ < 1 / 2 then ⌊t⌋
  else if 1 / 2 < t - ⌊t⌋ then ⌊t⌋ + 1
  else if ⌊t⌋ % 2 = 0 then ⌊t⌋ else ⌊t⌋ + 1

/-- The exponent of the unit in the last place of binary64 at `x`: 52 below the
binade of `x`, and never below the subnormal unit. -/
def ulpExp (x : ℚ) : ℤ := max (Int.log 2 x - 52) (-1074)

/-- The binary64 result of an operation whose exact value is `x ≥ 0`: the nearest
multiple of the unit in the last place, ties to even (no overflow in the range the
routes compute in). -/
def roundDouble (x : ℚ) : ℚ := rne (x / 2 ^ ulpExp x) * 2 ^ ulpExp x

/-- The non-negative finite binary64 numbers: a significand below `2 ^ 53` and an
exponent between -1074 and 971. -/
def IsDouble (x : ℚ) : Prop :=
  ∃ m : ℕ, ∃ c : ℤ, m < 2 ^ 53 ∧ -1074 ≤ c ∧ c ≤ 971 ∧ x = m * 2 ^ c

/-- The expression `Math.floor(100000 + Math.random() * 900000)`, `r` being the draw:
the product is rounded, then the sum, then the floor is taken. -/
def genOtp (r : ℚ) : ℤ := ⌊roundDouble (100000 + roundDouble (r * 900000))⌋

/-- The route `POST /api/auth/login/otp`; `sendMail` is the outcome of
`transporter.sendMail`, the thrown message or `info.response`. -/
def loginOtp (users : List User) (otps : List Otpdata) (email : String) (r : ℚ)
    (sendMail : Except String String) (now : Nat) : Response × List Otpdata :=
  let user := User.findOne users email
  let existing_user_otp := Otpdata.findOneByEmail otps email
  match user with
  | none => (⟨401, .message "User not registered"⟩, otps)
  | some _ =>
    let otp := genOtp r
    let otps1 :=
      if existing_user_otp.isSome then Otpdata.deleteOneByEmail otps email else otps
    match sendMail with
    | .error m => (⟨500, .error (.transport m)⟩, otps1)
    | .ok _ =>
      match Otpdata.create otps1 (toString otp) email now with
      | .error e => (⟨500, .error e⟩, otps1)
      | .ok (newotp, otps2) => (⟨201, .otpSent "Otp successfully sended" newotp⟩, otps2)

/-- The route `POST /api/auth/login/otp/verify`; a throw of `jwt.sign` (line 164)
comes before the `deleteOne` and is answered 500 by the `catch` block. -/
def loginOtpVerify (env : Env) (jwt : JwtLib) (users : List User) (otps : List Otpdata)
    (otp email : String) (now : Nat) : Response × List Otpdata :=
  let user := Otpdata.findOneByOtp otps otp
  let Userid := User.findOne users email
  match user with
  | none => (⟨401, .message "Invalid OTP"⟩, otps)
  | some user =>
    if user.email ≠ email then (⟨401, .message "Invalid OTP"⟩, otps)
    else
      match Userid with
      | none => (⟨500, .error .typeError⟩, otps)
      | some Userid =>
        match jwtSign jwt Userid._id env.secretTemplate 3600 now with
        | none => (⟨500, .error .signing⟩, otps)
        | some token =>
          (⟨201, .otpVerified "Otp successfully verified" token⟩,
            Otpdata.deleteOneByOtp otps otp)

/-- The unique index on `email` of the `otp` collection. -/
def Otpdata.uniqueEmail (otps : List Otpdata) : Prop :=
  (otps.map (fun d => d.email)).Nodup

instance (otps : List Otpdata) : Decidable (Otpdata.uniqueEmail otps) := by
  unfold Otpdata.uniqueEmail; infer_instance

/-! ## Contracts and reference instances of the libraries -/

/-- The contract of `bcryptjs`: a hash is never the empty string, and `compare`
accepts a password against its own hash, whatever the salt. -/
def BcryptLib.Sound (bcrypt : BcryptLib) : Prop :=
  ∀ s rounds salt,
    bcrypt.hash s rounds salt ≠ "" ∧ bcrypt.compare s (bcrypt.hash s rounds salt) = true

/-- The contract of `jsonwebtoken`, for the secrets it accepts: under a non-empty
secret `sign` returns a token, and before the expiry `verify` under the same secret
returns the signed id. -/
def JwtLib.Sound (jwt : JwtLib) : Prop :=
  ∀ id secret expiresIn iat, secret ≠ "" →
    ∃ token, jwt.sign id secret expiresIn iat = some token ∧
      ∀ now, now < iat + expiresIn → jwt.verify token secret now = some id

/-- The serialisation of a token: not empty and without a space. -/
def JwtLib.Compact (jwt : JwtLib) : Prop :=
  ∀ id secret expiresIn iat token, jwt.sign id secret expiresIn iat = some token →
    token ≠ "" ∧ ' ' ∉ token.data

/-- A reference hash for concrete runs: a prefix before the password. -/
def refBcrypt : BcryptLib where
  hash s _ _ := String.mk ('$' :: s.data)
  compare s h := h == String.mk ('$' :: s.data)

/-- A reference token format for concrete runs: the id and the expiry in unary,
separated by a dot. -/
def refJwt : JwtLib where
  sign id secret expiresIn iat :=
    if secret = "" then none
    else some (String.mk
      (List.replicate id 'i' ++ '.' :: List.replicate (iat + expiresIn) 'e'))
  verify token _ now :=
    match token.data.dropWhile (fun c => c == 'i') with
    | '.' :: es =>
      if now < es.length then some (token.data.takeWhile (fun c => c == 'i')).length
      else none
    | _ => none

/-- An environment with the signing secret set. -/
def refEnv : Env := ⟨some "s3cret"⟩

/-- A registered user of the concrete runs. -/
def alice : User := ⟨1, "A", "a@x.com", "$p"⟩

/-- A second registered user of the concrete runs. -/
def bob : User := ⟨2, "B", "b@x.com", "$q"⟩

/-! ## Facts about the collections -/

theorem Otpdata.findOneByOtp_mem {otps : List Otpdata} {otp : String} {d : Otpdata}
    (h : Otpdata.findOneByOtp otps otp = some d) : d ∈ otps ∧ d.otp = otp := by
  unfold Otpdata.findOneByOtp at h
  exact ⟨List.mem_of_find?_eq_some h, by simpa using List.find?_some h⟩

theorem Otpdata.findOneByEmail_mem {otps : List Otpdata} {email : String} {d : Otpdata}
    (h : Otpdata.findOneByEmail otps email = some d) : d ∈ otps ∧ d.email = email := by
  unfold Otpdata.findOneByEmail at h
  exact ⟨List.mem_of_find?_eq_some h, by simpa using List.find?_some h⟩

theorem Otpdata.findOneByOtp_eq_none {otps : List Otpdata} {otp : String} :
    Otpdata.findOneByOtp otps otp = none ↔ ∀ d ∈ otps, d.otp ≠ otp := by
  simp [Otpdata.findOneByOtp]

theorem Otpdata.findOneByEmail_eq_none {otps : List Otpdata} {email : String} :
    Otpdata.findOneByEmail otps email = none ↔ ∀ d ∈ otps, d.email ≠ email := by
  simp [Otpdata.findOneByEmail]

/-- Under the unique index two documents of the collection with one email are one
document. -/
theorem Otpdata.uniqueEmail_eq {otps : List Otpdata} (h : Otpdata.uniqueEmail otps)
    {a b : Otpdata} (ha : a ∈ otps) (hb : b ∈ otps) (hab : a.email = b.email) : a = b :=
  List.inj_on_of_nodup_map h ha hb hab

theorem Otpdata.uniqueEmail_sublist {l₁ l₂ : List Otpdata} (hs : l₁.Sublist l₂)
    (h : Otpdata.uniqueEmail l₂) : Otpdata.uniqueEmail l₁ :=
  List.Nodup.sublist (hs.map _) h

theorem Otpdata.uniqueEmail_deleteOneByEmail {otps : List Otpdata} (email : String)
    (h : Otpdata.uniqueEmail otps) :
    Otpdata.uniqueEmail (Otpdata.deleteOneByEmail otps email) :=
  Otpdata.uniqueEmail_sublist (List.eraseP_sublist _) h

theorem Otpdata.uniqueEmail_deleteOneByOtp {otps : List Otpdata} (otp : String)
    (h : Otpdata.uniqueEmail otps) :
    Otpdata.uniqueEmail (Otpdata.deleteOneByOtp otps otp) :=
  Otpdata.uniqueEmail_sublist (List.eraseP_sublist _) h

/-- The document removed by a `deleteOne` is the one the `findOne` with the same
filter returns; under the unique index it is gone afterwards. -/
theorem Otpdata.not_mem_deleteOneByOtp {otps : List Otpdata} {otp : String} {d : Otpdata}
    (huniq : Otpdata.uniqueEmail otps) (h : Otpdata.findOneByOtp otps otp = some d) :
    d ∉ Otpdata.deleteOneByOtp otps otp := by
  induction otps with
  | nil => simp [Otpdata.findOneByOtp] at h
  | cons x xs ih =>
    have hx : Otpdata.uniqueEmail xs := Otpdata.uniqueEmail_sublist (List.sublist_cons_self x xs) huniq
    have hnd : x.email ∉ xs.map (fun d => d.email) := by
      have := huniq
      simp only [Otpdata.uniqueEmail, List.map_cons, List.nodup_cons] at this
      exact this.1
    by_cases hp : x.otp = otp
    · have hd : d = x := by
        simpa [Otpdata.findOneByOtp, List.find?_cons, hp] using h.symm
      subst hd
      simp only [Otpdata.deleteOneByOtp, List.eraseP_cons, hp, beq_self_eq_true, cond_true]
      intro hmem
      exact hnd (List.mem_map_of_mem _ hmem)
    · have h' : Otpdata.findOneByOtp xs otp = some d := by
        simpa [Otpdata.findOneByOtp, List.find?_cons, hp] using h
      have hmem := (Otpdata.findOneByOtp_mem h').1
      have hne : d ≠ x := by
        intro hdx
        subst hdx
        exact hnd (List.mem_map_of_mem _ hmem)
      have := ih hx h'
      simp only [Otpdata.deleteOneByOtp] at this ⊢
      simp [List.eraseP_cons, hp, hne, this]

/-- A `deleteOne` removes nothing but the document its `findOne` returns. -/
theorem Otpdata.mem_deleteOneByOtp_of_ne {otps : List Otpdata} {otp : String}
    {d x : Otpdata} (h : Otpdata.findOneByOtp otps otp = some d) (hx : x ∈ otps)
    (hne : x ≠ d) : x ∈ Otpdata.deleteOneByOtp otps otp := by
  induction otps with
  | nil => simp at hx
  | cons y ys ih =>
    by_cases hp : y.otp = otp
    · have hd : d = y := by
        simpa [Otpdata.findOneByOtp, List.find?_cons, hp] using h.symm
      subst hd
      rcases List.mem_cons.mp hx with hxy | hxy
      · exact absurd hxy hne
      · simpa [Otpdata.deleteOneByOtp, List.eraseP_cons, hp] using hxy
    · have h' : Otpdata.findOneByOtp ys otp = some d := by
        simpa [Otpdata.findOneByOtp, List.find?_cons, hp] using h
      rcases List.mem_cons.mp hx with hxy | hxy
      · simp [Otpdata.deleteOneByOtp, List.eraseP_cons, hp, hxy]
      · have := ih h' hxy
        simp only [Otpdata.deleteOneByOtp] at this ⊢
        simp [List.eraseP_cons, hp, this]

theorem Otpdata.mem_deleteOneByOtp {otps : List Otpdata} {otp : String} {x : Otpdata}
    (h : x ∈ Otpdata.deleteOneByOtp otps otp) : x ∈ otps :=
  List.eraseP_subset _ h

/-! ## The verification route, case by case -/

theorem loginOtpVerify_of_none (env : Env) (jwt : JwtLib) (users : List User)
    {otps : List Otpdata} {otp : String} (email : String) (now : Nat)
    (h : Otpdata.findOneByOtp otps otp = none) :
    loginOtpVerify env jwt users otps otp email now =
      (⟨401, .message "Invalid OTP"⟩, otps) := by
  simp [loginOtpVerify, h]

theorem loginOtpVerify_of_other (env : Env) (jwt : JwtLib) (users : List User)
    {otps : List Otpdata} {otp email : String} {d : Otpdata} (now : Nat)
    (h : Otpdata.findOneByOtp otps otp = some d) (hne : d.email ≠ email) :
    loginOtpVerify env jwt users otps otp email now =
      (⟨401, .message "Invalid OTP"⟩, otps) := by
  simp [loginOtpVerify, h, hne]

/-- A 201 of the verification route comes from a found document with the supplied
email, a registered user and a `jwt.sign` that returned; the token is the one signed
for that user and the store loses the first document carrying the code. -/
theorem loginOtpVerify_created {env : Env} {jwt : JwtLib} {users : List User}
    {otps : List Otpdata} {otp email : String} {now : Nat}
    (h : (loginOtpVerify env jwt users otps otp email now).1.status = 201) :
    ∃ d u token, Otpdata.findOneByOtp otps otp = some d ∧ d.email = email ∧
      User.findOne users email = some u ∧
      jwtSign jwt u._id env.secretTemplate 3600 now = some token ∧
      loginOtpVerify env jwt users otps otp email now =
        (⟨201, .otpVerified "Otp successfully verified" token⟩,
          Otpdata.deleteOneByOtp otps otp) := by
  unfold loginOtpVerify at h ⊢
  cases hf : Otpdata.findOneByOtp otps otp with
  | none => simp [hf] at h
  | some d =>
    by_cases he : d.email = email
    · cases hu : User.findOne users email with
      | none => simp [hf, he, hu] at h
      | some u =>
        cases hs : jwtSign jwt u._id env.secretTemplate 3600 now with
        | none => simp [hf, he, hu, hs] at h
        | some token => exact ⟨d, u, token, rfl, he, rfl, hs, by simp [he, hs]⟩
    · simp [hf, he] at h

/-! ## Binary64 rounding and the passcode generator -/

theorem rne_sub_le (t : ℚ) : |(rne t : ℚ) - t| ≤ 1 / 2 := by
  unfold rne
  have h1 := Int.floor_le t
  have h2 := Int.lt_floor_add_one t
  split_ifs with ha hb hc
  · rw [abs_le]; constructor <;> linarith
  · push_cast; rw [abs_le]; constructor <;> linarith
  · rw [abs_le]; constructor <;> linarith
  · push_cast; rw [abs_le]; constructor <;> linarith

theorem rne_nearest (t : ℚ) (k : ℤ) : |(rne t : ℚ) - t| ≤ |(k : ℚ) - t| := by
  by_cases h : k = rne t
  · rw [h]
  · have h1 : (1 : ℤ) ≤ |k - rne t| := Int.one_le_abs (sub_ne_zero.mpr h)
    have h2 : (1 : ℚ) ≤ |(k : ℚ) - rne t| := by exact_mod_cast h1
    have h3 := rne_sub_le t
    have h4 : |(k : ℚ) - rne t| ≤ |(k : ℚ) - t| + |(rne t : ℚ) - t| := by
      have := abs_sub_le (k : ℚ) t (rne t)
      rwa [abs_sub_comm t (rne t : ℚ)] at this
    linarith

theorem ulpExp_pos (x : ℚ) : (0 : ℚ) < 2 ^ ulpExp x := by positivity

/-- Rounding returns a binary64 number nearest to its argument. -/
theorem roundDouble_nearest {x g : ℚ} (hx : 0 < x) (hg : IsDouble g) :
    |roundDouble x - x| ≤ |g - x| := by
  obtain ⟨m, c, hm, hc, -, rfl⟩ := hg
  have hu := ulpExp_pos x
  set q := ulpExp x with hq
  set u : ℚ := 2 ^ q with hu'
  have hxu : x = x / u * u := by field_simp
  have key : ∀ k : ℤ, |roundDouble x - x| ≤ |(k : ℚ) * u - x| := by
    intro k
    have := rne_nearest (x / u) k
    have e1 : roundDouble x - x = ((rne (x / u) : ℚ) - x / u) * u := by
      unfold roundDouble; rw [← hq, ← hu']; field_simp
    have e2 : (k : ℚ) * u - x = ((k : ℚ) - x / u) * u := by field_simp
    rw [e1, e2, abs_mul, abs_mul, abs_of_pos hu]
    exact mul_le_mul_of_nonneg_right this hu.le
  by_cases hcq : q ≤ c
  · -- g is a multiple of the unit
    obtain ⟨d, hd⟩ := Int.eq_ofNat_of_zero_le (sub_nonneg.mpr hcq)
    have : (m : ℚ) * 2 ^ c = ((m * 2 ^ d : ℕ) : ℤ) * u := by
      have hc' : c = d + q := by omega
      rw [hc', zpow_add₀ (by norm_num), zpow_natCast]
      push_cast
      ring
    rw [this]
    exact key _
  · -- g is below the binade of x
    push_neg at hcq
    have hq52 : q = Int.log 2 x - 52 := by
      rw [hq]; unfold ulpExp
      rw [hq] at hcq; unfold ulpExp at hcq
      rcases le_total (Int.log 2 x - 52) (-1074) with h | h
      · rw [max_eq_right h] at hcq; omega
      · exact max_eq_left h
    have hlog : (2 : ℚ) ^ Int.log 2 x ≤ x := Int.zpow_log_le_self (by norm_num) hx
    have hpow : (2 : ℚ) ^ Int.log 2 x = ((2 ^ 52 : ℕ) : ℤ) * u := by
      have : Int.log 2 x = 52 + q := by omega
      rw [this, zpow_add₀ (by norm_num)]
      norm_num
    have hk := key ((2 ^ 52 : ℕ) : ℤ)
    rw [← hpow] at hk
    have hglt : (m : ℚ) * 2 ^ c < 2 ^ Int.log 2 x := by
      have h1 : (m : ℚ) < 2 ^ 53 := by exact_mod_cast hm
      have h2 : (2 : ℚ) ^ c ≤ 2 ^ (q - 1) := zpow_le_zpow_right₀ (by norm_num) (by omega)
      have h3 : (0 : ℚ) < 2 ^ c := by positivity
      calc (m : ℚ) * 2 ^ c < 2 ^ 53 * 2 ^ c := by nlinarith
        _ ≤ 2 ^ 53 * 2 ^ (q - 1) := by nlinarith
        _ = 2 ^ Int.log 2 x := by
          have : Int.log 2 x = 53 + (q - 1) := by omega
          rw [this, zpow_add₀ (by norm_num)]
          norm_num
    have e1 : |(2 : ℚ) ^ Int.log 2 x - x| = x - 2 ^ Int.log 2 x := by
      rw [abs_of_nonpos (by linarith)]; ring
    have e2 : |(m : ℚ) * 2 ^ c - x| = x - m * 2 ^ c := by
      rw [abs_of_neg (by linarith)]; ring
    rw [e1] at hk
    rw [e2]
    linarith


theorem IsDouble.nonneg {x : ℚ} (h : IsDouble x) : 0 ≤ x := by
  obtain ⟨m, c, -, -, -, rfl⟩ := h
  positivity

theorem isDouble_natCast_mul {m : ℕ} (c : ℤ) (hm : m < 2 ^ 53) (hc : -1074 ≤ c)
    (hc' : c ≤ 971) : IsDouble (m * 2 ^ c) :=
  ⟨m, c, hm, hc, hc', rfl⟩

theorem isDouble_natCast {m : ℕ} (hm : m < 2 ^ 53) : IsDouble (m : ℚ) :=
  ⟨m, 0, hm, by norm_num, by norm_num, by simp⟩

theorem roundDouble_zero : roundDouble 0 = 0 := by
  simp [roundDouble, rne]

theorem roundDouble_le {x b : ℚ} (hx : 0 ≤ x) (hb : IsDouble b) (h : x ≤ b) :
    roundDouble x ≤ b := by
  rcases hx.eq_or_lt with h0 | h0
  · rw [← h0, roundDouble_zero]; exact hb.nonneg
  · by_contra hlt
    push_neg at hlt
    have := roundDouble_nearest h0 hb
    rw [abs_of_pos (by linarith), abs_of_nonneg (by linarith)] at this
    linarith

theorem le_roundDouble {x a : ℚ} (hx : 0 ≤ x) (ha : IsDouble a) (h : a ≤ x) :
    a ≤ roundDouble x := by
  rcases hx.eq_or_lt with h0 | h0
  · rw [← h0, roundDouble_zero]; rw [← h0] at h; exact h
  · by_contra hlt
    push_neg at hlt
    have := roundDouble_nearest h0 ha
    rw [abs_of_neg (by linarith), abs_of_nonpos (by linarith)] at this
    linarith

/-- Rounding leaves a binary64 number as it is. -/
theorem roundDouble_eq_self {x : ℚ} (h : IsDouble x) : roundDouble x = x :=
  le_antisymm (roundDouble_le h.nonneg h le_rfl) (le_roundDouble h.nonneg h le_rfl)

theorem ulpExp_of_binade {x : ℚ} (e : ℤ) (he : -1022 ≤ e) (h1 : (2 : ℚ) ^ e ≤ x)
    (h2 : x < 2 ^ (e + 1)) : ulpExp x = e - 52 := by
  have hx : 0 < x := lt_of_lt_of_le (by positivity) h1
  have hl1 : e ≤ Int.log 2 x := (Int.zpow_le_iff_le_log (by norm_num) hx).mp h1
  have hl2 : Int.log 2 x < e + 1 := (Int.lt_zpow_iff_log_lt (by norm_num) hx).mp h2
  unfold ulpExp
  rw [max_eq_left (by omega)]
  omega

/-- The largest product `r * 900000` of a draw below 1 rounds below 900000. -/
theorem roundDouble_mul_lt {x : ℚ} (hx : 0 ≤ x) (h : x ≤ 900000 - 900000 / 2 ^ 53) :
    roundDouble x ≤ 900000 - 1 / 2 ^ 33 := by
  by_cases hb : x < 2 ^ 19
  · have h19 : IsDouble ((2 ^ 19 : ℕ) : ℚ) := isDouble_natCast (by norm_num)
    have := roundDouble_le hx h19 (by push_cast; linarith)
    push_cast at this
    norm_num at this ⊢
    linarith
  · push_neg at hb
    have hq : ulpExp x = -33 := by
      have := ulpExp_of_binade (x := x) 19 (by norm_num) (by norm_num; linarith)
        (by norm_num; norm_num at h; linarith)
      simpa using this
    have hr := rne_sub_le (x / 2 ^ (-33 : ℤ))
    rw [abs_le] at hr
    have hzp : (2 : ℚ) ^ (-33 : ℤ) = 1 / 2 ^ 33 := by
      rw [zpow_neg]; norm_num
    have hlt : (rne (x / 2 ^ (-33 : ℤ)) : ℚ) < ((900000 * 2 ^ 33 : ℤ) : ℚ) := by
      rw [hzp] at hr ⊢
      push_cast
      norm_num at h hr ⊢
      linarith
    have hle : rne (x / 2 ^ (-33 : ℤ)) ≤ 900000 * 2 ^ 33 - 1 := by
      have := Int.cast_lt.mp hlt
      omega
    have hle' : (rne (x / 2 ^ (-33 : ℤ)) : ℚ) ≤ 900000 * 2 ^ 33 - 1 := by
      exact_mod_cast hle
    unfold roundDouble
    rw [hq, hzp] at *
    norm_num at hle' ⊢
    linarith

theorem IsDouble.le_pred_one {r : ℚ} (h : IsDouble r) (h1 : r < 1) :
    r ≤ 1 - 1 / 2 ^ 53 := by
  obtain ⟨m, c, hm, -, -, rfl⟩ := h
  by_cases hc : -53 ≤ c
  · obtain ⟨d, hd⟩ := Int.eq_ofNat_of_zero_le (show 0 ≤ c + 53 by omega)
    have hc' : c = d + (-53) := by omega
    have e : (m : ℚ) * 2 ^ c = ((m * 2 ^ d : ℕ) : ℚ) / 2 ^ 53 := by
      rw [hc', zpow_add₀ (by norm_num), zpow_natCast, zpow_neg]
      push_cast
      norm_num
      ring
    rw [e] at h1 ⊢
    have hlt : ((m * 2 ^ d : ℕ) : ℚ) < 2 ^ 53 := by
      rw [div_lt_one (by positivity)] at h1
      exact h1
    have hlt' : m * 2 ^ d < 2 ^ 53 := by exact_mod_cast hlt
    have hle : ((m * 2 ^ d : ℕ) : ℚ) ≤ 2 ^ 53 - 1 := by
      have : m * 2 ^ d ≤ 2 ^ 53 - 1 := by omega
      have := (Nat.cast_le (α := ℚ)).mpr this
      push_cast at this ⊢
      linarith
    rw [div_le_iff₀ (by positivity)]
    norm_num at hle ⊢
    linarith
  · push_neg at hc
    have h2 : (2 : ℚ) ^ c ≤ 2 ^ (-54 : ℤ) := zpow_le_zpow_right₀ (by norm_num) (by omega)
    have h3 : (m : ℚ) < 2 ^ 53 := by exact_mod_cast hm
    have h4 : (0 : ℚ) < 2 ^ c := by positivity
    have hzp : (2 : ℚ) ^ (-54 : ℤ) = 1 / 2 ^ 54 := by
      rw [zpow_neg]; norm_num
    rw [hzp] at h2
    have : (m : ℚ) * 2 ^ c ≤ 2 ^ 53 * (1 / 2 ^ 54) := by nlinarith
    norm_num at this ⊢
    linarith


/-- On draws with at most 20 fractional bits both roundings are exact. -/
theorem genOtp_dyadic (j : ℕ) (hj : j < 2 ^ 20) :
    genOtp (j / 2 ^ 20) = ⌊(100000 : ℚ) + 900000 * j / 2 ^ 20⌋ := by
  have hzp : (2 : ℚ) ^ (-20 : ℤ) = 1 / 2 ^ 20 := by
    rw [zpow_neg]; norm_num
  have h1 : IsDouble ((j : ℚ) / 2 ^ 20 * 900000) := by
    refine ⟨900000 * j, -20, by omega, by norm_num, by norm_num, ?_⟩
    rw [hzp]; push_cast; ring
  have h2 : IsDouble (100000 + (j : ℚ) / 2 ^ 20 * 900000) := by
    refine ⟨100000 * 2 ^ 20 + 900000 * j, -20, by omega, by norm_num, by norm_num, ?_⟩
    rw [hzp]; push_cast; ring
  unfold genOtp
  rw [roundDouble_eq_self h1, roundDouble_eq_self h2]
  congr 1
  ring

theorem genOtp_zero : genOtp 0 = 100000 := by
  have := genOtp_dyadic 0 (by norm_num)
  norm_num at this
  exact this

theorem genOtp_half : genOtp (1 / 2) = 550000 := by
  have := genOtp_dyadic (2 ^ 19) (by norm_num)
  norm_num at this
  exact this

/-! ## The request route -/

theorem Otpdata.deleteOneByEmail_of_none {otps : List Otpdata} {email : String}
    (h : Otpdata.findOneByEmail otps email = none) :
    Otpdata.deleteOneByEmail otps email = otps := by
  rw [Otpdata.findOneByEmail_eq_none] at h
  exact List.eraseP_of_forall_not (fun a ha => by simpa using h a ha)

/-- The collection the request route has in hand when it sends the mail. -/
theorem loginOtp_store_before_send (otps : List Otpdata) (email : String) :
    (if (Otpdata.findOneByEmail otps email).isSome then
        Otpdata.deleteOneByEmail otps email else otps) =
      Otpdata.deleteOneByEmail otps email := by
  cases h : Otpdata.findOneByEmail otps email with
  | none => simp [Otpdata.deleteOneByEmail_of_none h]
  | some d => simp

/-- A 201 of the request route: the user is registered, the mail went out, and the
new document, carrying the generated code, is appended to the collection from which
the first document of that email was removed. -/
theorem loginOtp_created {users : List User} {otps : List Otpdata} {email : String}
    {r : ℚ} {sendMail : Except String String} {now : Nat}
    (h : (loginOtp users otps email r sendMail now).1.status = 201) :
    (∃ u, User.findOne users email = some u) ∧ (∃ info, sendMail = .ok info) ∧
      Otpdata.findOneByEmail (Otpdata.deleteOneByEmail otps email) email = none ∧
      loginOtp users otps email r sendMail now =
        (⟨201, .otpSent "Otp successfully sended" ⟨email, toString (genOtp r), now⟩⟩,
          Otpdata.deleteOneByEmail otps email ++ [⟨email, toString (genOtp r), now⟩]) := by
  unfold loginOtp at h ⊢
  simp only [loginOtp_store_before_send] at h ⊢
  cases hu : User.findOne users email with
  | none => simp [hu] at h
  | some u =>
    cases sendMail with
    | error m => simp [hu] at h
    | ok info =>
      simp only [hu] at h ⊢
      unfold Otpdata.create at h ⊢
      by_cases hv : Otpdata.invalidPaths (toString (genOtp r)) email = []
      · cases hf : Otpdata.findOneByEmail (Otpdata.deleteOneByEmail otps email) email with
        | none => simp [hv, hf]
        | some d => simp [hv, hf] at h
      · simp [hv] at h

/-- A request for a registered email whose mail goes out and whose new document
passes validation answers 201 and appends the document. -/
theorem loginOtp_run {users : List User} {otps : List Otpdata} {email : String}
    {r : ℚ} {info : String} {now : Nat} {u : User} {c : String}
    (hu : User.findOne users email = some u) (hc : toString (genOtp r) = c)
    (hv : Otpdata.invalidPaths c email = [])
    (hnone : Otpdata.findOneByEmail (Otpdata.deleteOneByEmail otps email) email = none) :
    loginOtp users otps email r (.ok info) now =
      (⟨201, .otpSent "Otp successfully sended" ⟨email, c, now⟩⟩,
        Otpdata.deleteOneByEmail otps email ++ [⟨email, c, now⟩]) := by
  subst hc
  unfold loginOtp
  simp only [loginOtp_store_before_send, hu]
  unfold Otpdata.create
  simp [hv, hnone]

theorem genOtp_zero_string : toString (genOtp 0) = "100000" := by
  rw [genOtp_zero]
  rfl

theorem genOtp_half_string : toString (genOtp (1 / 2)) = "550000" := by
  rw [genOtp_half]
  rfl

theorem Otpdata.uniqueEmail_append_new {otps : List Otpdata} {email : String}
    (otp : String) (now : Nat) (h : Otpdata.uniqueEmail otps)
    (hnew : Otpdata.findOneByEmail otps email = none) :
    Otpdata.uniqueEmail (otps ++ [⟨email, otp, now⟩]) := by
  rw [Otpdata.findOneByEmail_eq_none] at hnew
  unfold Otpdata.uniqueEmail at h ⊢
  rw [List.map_append, List.nodup_append]
  refine ⟨h, by simp, ?_⟩
  intro a ha hb
  simp only [List.map_cons, List.map_nil, List.mem_singleton] at hb
  obtain ⟨x, hx, rfl⟩ := List.mem_map.mp ha
  exact hnew x hx hb

/-- The request route keeps the unique index, whatever its outcome. -/
theorem loginOtp_uniqueEmail (users : List User) {otps : List Otpdata} (email : String)
    (r : ℚ) (sendMail : Except String String) (now : Nat)
    (h : Otpdata.uniqueEmail otps) :
    Otpdata.uniqueEmail (loginOtp users otps email r sendMail now).2 := by
  have hdel := Otpdata.uniqueEmail_deleteOneByEmail email h
  unfold loginOtp
  simp only [loginOtp_store_before_send]
  cases User.findOne users email with
  | none => exact h
  | some u =>
    cases sendMail with
    | error m => exact hdel
    | ok info =>
      simp only
      unfold Otpdata.create
      by_cases hv : Otpdata.invalidPaths (toString (genOtp r)) email = []
      · cases hf : Otpdata.findOneByEmail (Otpdata.deleteOneByEmail otps email) email with
        | none =>
          simp only [hv, hf, ne_eq, not_true_eq_false, if_false, Option.isSome_none,
            Bool.false_eq_true]
          exact Otpdata.uniqueEmail_append_new _ _ hdel hf
        | some d => simpa [hv, hf] using hdel
      · simpa [hv] using hdel

/-- The verification route keeps the unique index, whatever its outcome. -/
theorem loginOtpVerify_uniqueEmail (env : Env) (jwt : JwtLib) (users : List User)
    {otps : List Otpdata} (otp email : String) (now : Nat)
    (h : Otpdata.uniqueEmail otps) :
    Otpdata.uniqueEmail (loginOtpVerify env jwt users otps otp email now).2 := by
  unfold loginOtpVerify
  cases Otpdata.findOneByOtp otps otp with
  | none => exact h
  | some d =>
    by_cases he : d.email = email
    · cases User.findOne users email with
      | none => simpa [he] using h
      | some u =>
        cases hs : jwtSign jwt u._id env.secretTemplate 3600 now with
        | none => simpa [he, hs] using h
        | some token => simpa [he, hs] using Otpdata.uniqueEmail_deleteOneByOtp otp h
    · simpa [he] using h

/-- After two requests for one email that both answer 201, the collection is the
one the first request started from, without its document for that email, followed by
the document of the second request. -/
theorem loginOtp_twice {users : List User} {otps : List Otpdata} {email : String}
    {r₁ r₂ : ℚ} {m₁ m₂ : Except String String} {t₁ t₂ : Nat}
    (h₁ : (loginOtp users otps email r₁ m₁ t₁).1.status = 201)
    (h₂ : (loginOtp users (loginOtp users otps email r₁ m₁ t₁).2 email r₂ m₂ t₂).1.status
      = 201) :
    Otpdata.findOneByEmail (Otpdata.deleteOneByEmail otps email) email = none ∧
    (loginOtp users (loginOtp users otps email r₁ m₁ t₁).2 email r₂ m₂ t₂).2 =
      Otpdata.deleteOneByEmail otps email ++ [⟨email, toString (genOtp r₂), t₂⟩] := by
  obtain ⟨-, -, hnone, hres₁⟩ := loginOtp_created h₁
  rw [hres₁] at h₂ ⊢
  obtain ⟨-, -, -, hres₂⟩ := loginOtp_created h₂
  rw [hres₂]
  refine ⟨hnone, ?_⟩
  have hno : ∀ b ∈ Otpdata.deleteOneByEmail otps email,
      ¬ (fun d : Otpdata => d.email == email) b = true := by
    intro b hb
    simpa using (Otpdata.findOneByEmail_eq_none.mp hnone) b hb
  simp only [Otpdata.deleteOneByEmail] at hno ⊢
  rw [List.eraseP_append_right _ hno]
  simp

/-- Away from a collision the verification that follows a request succeeds: when no
document of another email carries the code just issued for `e` and `jwt.sign`
returns, the verification with that code and `e` answers 201 with the token signed
for the user of `e`. -/
theorem loginOtpVerify_after_request (env : Env) (jwt : JwtLib) {users : List User}
    {otps : List Otpdata} {e : String} {r : ℚ} {m : Except String String} {t : Nat}
    (t' : Nat) {u : User} {token : String}
    (h : (loginOtp users otps e r m t).1.status = 201)
    (hfree : ∀ d ∈ otps, d.email ≠ e → d.otp ≠ toString (genOtp r))
    (hu : User.findOne users e = some u)
    (hs : jwtSign jwt u._id env.secretTemplate 3600 t' = some token) :
    (loginOtpVerify env jwt users (loginOtp users otps e r m t).2
        (toString (genOtp r)) e t').1 =
      ⟨201, .otpVerified "Otp successfully verified" token⟩ := by
  obtain ⟨-, -, hnone, hres⟩ := loginOtp_created h
  rw [hres]
  have hno := Otpdata.findOneByEmail_eq_none.mp hnone
  have hfirst : Otpdata.findOneByOtp (Otpdata.deleteOneByEmail otps e)
      (toString (genOtp r)) = none := by
    rw [Otpdata.findOneByOtp_eq_none]
    intro d hd
    exact hfree d (List.eraseP_subset _ hd) (hno d hd)
  have hfind : Otpdata.findOneByOtp
      (Otpdata.deleteOneByEmail otps e ++ [⟨e, toString (genOtp r), t⟩])
      (toString (genOtp r)) = some ⟨e, toString (genOtp r), t⟩ := by
    unfold Otpdata.findOneByOtp at hfirst ⊢
    simp [List.find?_append, hfirst]
  simp [loginOtpVerify, hfind, hu, hs]

/-! ## The bearer header and the reference libraries -/

theorem splitChars_of_not_mem (sep : Char) (cs : List Char) (h : sep ∉ cs) :
    splitChars sep cs = [cs] := by
  induction cs with
  | nil => rfl
  | cons c cs ih =>
    have hc : c ≠ sep := fun e => h (e ▸ List.mem_cons_self c cs)
    have hcs : sep ∉ cs := fun m => h (List.mem_cons_of_mem c m)
    simp [splitChars, hc, ih hcs]

/-- The header `Bearer <token>` yields the token, when the token has no space. -/
theorem bearerToken_bearer (token : String) (h : ' ' ∉ token.data) :
    bearerToken (some ("Bearer " ++ token)) = some token := by
  have hd : ("Bearer " ++ token).data =
      'B' :: 'e' :: 'a' :: 'r' :: 'e' :: 'r' :: ' ' :: token.data := by
    rw [String.data_append]
    rfl
  simp [bearerToken, hd, splitChars, splitChars_of_not_mem ' ' token.data h]

theorem refBcrypt_sound : refBcrypt.Sound := by
  intro s rounds salt
  constructor
  · intro h
    have := congrArg String.data h
    simp [refBcrypt] at this
  · simp [refBcrypt]

theorem refJwt_sound : refJwt.Sound := by
  intro id secret expiresIn iat hsecret
  have hdrop : ∀ n (l : List Char),
      (List.replicate n 'i' ++ '.' :: l).dropWhile (fun c => c == 'i') = '.' :: l := by
    intro n l
    induction n with
    | zero => simp [List.dropWhile_cons]
    | succ n ih => simp [List.replicate_succ, List.dropWhile_cons, ih]
  have htake : ∀ n (l : List Char),
      (List.replicate n 'i' ++ '.' :: l).takeWhile (fun c => c == 'i') =
        List.replicate n 'i' := by
    intro n l
    induction n with
    | zero => simp [List.takeWhile_cons]
    | succ n ih => simp [List.replicate_succ, List.takeWhile_cons, ih]
  refine ⟨String.mk
    (List.replicate id 'i' ++ '.' :: List.replicate (iat + expiresIn) 'e'),
    by simp [refJwt, hsecret], ?_⟩
  intro now hlt
  simp [refJwt, hdrop, htake, hlt]

theorem refJwt_compact : refJwt.Compact := by
  intro id secret expiresIn iat token htoken
  by_cases hsecret : secret = ""
  · simp [refJwt, hsecret] at htoken
  · simp only [refJwt, hsecret, if_false, Option.some.injEq] at htoken
    subst htoken
    constructor
    · intro h
      have := congrArg String.data h
      simp at this
    · simp only [List.mem_append, List.mem_cons, not_or]
      refine ⟨?_, by decide, ?_⟩
      · intro h
        have := List.eq_of_mem_replicate h
        exact absurd this (by decide)
      · intro h
        have := List.eq_of_mem_replicate h
        exact absurd this (by decide)

theorem User.findOne_append_new {users : List User} {email : String} (u : User)
    (h : User.findOne users email = none) (hu : u.email = email) :
    User.findOne (users ++ [u]) email = some u := by
  unfold User.findOne at h ⊢
  simp [List.find?_append, h, hu]

theorem User.findById_append_new {users : List User} {id : Nat} (u : User)
    (h : User.findById users id = none) (hu : u._id = id) :
    User.findById (users ++ [u]) id = some u := by
  unfold User.findById at h ⊢
  simp [List.find?_append, h, hu]

/-! ## OTP verification: rejection and one-shot consumption -/

/-- C2. When no passcode document carries the supplied code, or the document found
for the code has a stored email different from the supplied one, the verification
route answers 401 `Invalid OTP` (a body without token) and leaves the passcode
collection as it was. -/
theorem loginOtpVerify_invalid (env : Env) (jwt : JwtLib) (users : List User)
    (otps : List Otpdata) (otp email : String) (now : Nat)
    (h : (∀ d ∈ otps, d.otp ≠ otp) ∨
      ∃ d, Otpdata.findOneByOtp otps otp = some d ∧ d.email ≠ email) :
    loginOtpVerify env jwt users otps otp email now =
      (⟨401, .message "Invalid OTP"⟩, otps) := by
  rcases h with h | ⟨d, hd, hne⟩
  · exact loginOtpVerify_of_none env jwt users email now
      (Otpdata.findOneByOtp_eq_none.mpr h)
  · exact loginOtpVerify_of_other env jwt users now hd hne

theorem loginOtpVerify_invalid_witness :
    loginOtpVerify refEnv refJwt [alice, bob] [⟨"b@x.com", "123456", 0⟩]
        "123456" "a@x.com" 7 =
      (⟨401, .message "Invalid OTP"⟩, [⟨"b@x.com", "123456", 0⟩]) :=
  loginOtpVerify_invalid refEnv refJwt [alice, bob] [⟨"b@x.com", "123456", 0⟩]
    "123456" "a@x.com" 7 (Or.inr ⟨⟨"b@x.com", "123456", 0⟩, by decide, by decide⟩)

/-- C3. One-shot consumption. On a passcode collection that respects its unique
index on `email`, a verification that answers 201 removes the very document it
matched (every other document stays), and a second verification with the same code
and email answers 401 `Invalid OTP`, also when other documents carry the same code. -/
theorem loginOtpVerify_one_shot (env : Env) (jwt : JwtLib) (users : List User)
    (otps : List Otpdata) (otp email : String) (now now' : Nat)
    (huniq : Otpdata.uniqueEmail otps)
    (hok : (loginOtpVerify env jwt users otps otp email now).1.status = 201) :
    (∃ d, Otpdata.findOneByOtp otps otp = some d ∧ d.email = email ∧
        d ∉ (loginOtpVerify env jwt users otps otp email now).2 ∧
        ∀ x ∈ otps, x ≠ d → x ∈ (loginOtpVerify env jwt users otps otp email now).2) ∧
    loginOtpVerify env jwt users
        (loginOtpVerify env jwt users otps otp email now).2 otp email now' =
      (⟨401, .message "Invalid OTP"⟩,
        (loginOtpVerify env jwt users otps otp email now).2) := by
  obtain ⟨d, u, token, hd, he, -, -, hres⟩ := loginOtpVerify_created hok
  have hgone := Otpdata.not_mem_deleteOneByOtp huniq hd
  rw [hres]
  refine ⟨⟨d, hd, he, hgone, ?_⟩, ?_⟩
  · intro x hx hxd
    exact Otpdata.mem_deleteOneByOtp_of_ne hd hx hxd
  · cases hf : Otpdata.findOneByOtp (Otpdata.deleteOneByOtp otps otp) otp with
    | none => exact loginOtpVerify_of_none env jwt users email now' hf
    | some d' =>
      refine loginOtpVerify_of_other env jwt users now' hf ?_
      intro he'
      have hm' := Otpdata.mem_deleteOneByOtp (Otpdata.findOneByOtp_mem hf).1
      have : d' = d :=
        Otpdata.uniqueEmail_eq huniq hm' (Otpdata.findOneByOtp_mem hd).1 (he'.trans he.symm)
      exact hgone (this ▸ (Otpdata.findOneByOtp_mem hf).1)

theorem loginOtpVerify_one_shot_witness :
    loginOtpVerify refEnv refJwt [alice, bob]
        (loginOtpVerify refEnv refJwt [alice, bob]
          [⟨"a@x.com", "123456", 0⟩, ⟨"b@x.com", "123456", 3⟩] "123456" "a@x.com" 5).2
        "123456" "a@x.com" 6 =
      (⟨401, .message "Invalid OTP"⟩,
        (loginOtpVerify refEnv refJwt [alice, bob]
          [⟨"a@x.com", "123456", 0⟩, ⟨"b@x.com", "123456", 3⟩] "123456" "a@x.com" 5).2) :=
  (loginOtpVerify_one_shot refEnv refJwt [alice, bob]
    [⟨"a@x.com", "123456", 0⟩, ⟨"b@x.com", "123456", 3⟩] "123456" "a@x.com" 5 6
    (by decide) (by decide)).2

/-! ## Password login -/

/-- C8, as stated, fails. For the registered email of Alice a numeric password makes
`bcrypt.compare` throw and the login answers 500 with the thrown message, while the
same body with an unregistered email is answered 401 `Invalid credentials`: the two
answers tell the registered email apart. -/
theorem login_leaks_on_non_string_password :
    login refEnv refBcrypt refJwt [alice] "a@x.com" (.number 123) 3 =
        ⟨500, .error (.illegalArguments "number" "string")⟩ ∧
      login refEnv refBcrypt refJwt [alice] "nobody@x.com" (.number 123) 3 =
        ⟨401, .message "Invalid credentials"⟩ ∧
      login refEnv refBcrypt refJwt [alice] "a@x.com" (.number 123) 3 ≠
        login refEnv refBcrypt refJwt [alice] "nobody@x.com" (.number 123) 3 := by
  decide

/-- C8, amended. For a login request body whose password is a string: the answer
for a registered email with a password that `bcrypt.compare` rejects is 401
`Invalid credentials`, and it is the answer, status and body, given when the email
is not registered (whatever the password sent with it). -/
theorem login_no_leak (env : Env) (bcrypt : BcryptLib) (jwt : JwtLib)
    (users users' : List User) (email password email' : String) (password' : JsValue)
    (now now' : Nat) (u : User)
    (hreg : User.findOne users email = some u)
    (hbad : bcrypt.compare password u.password = false)
    (hunreg : User.findOne users' email' = none) :
    login env bcrypt jwt users email (.string password) now =
        ⟨401, .message "Invalid credentials"⟩ ∧
      login env bcrypt jwt users email (.string password) now =
        login env bcrypt jwt users' email' password' now' := by
  simp [login, bcryptCompare, hreg, hbad, hunreg]

theorem login_no_leak_witness :
    login refEnv refBcrypt refJwt [alice] "a@x.com" (.string "wrong") 3 =
        ⟨401, .message "Invalid credentials"⟩ ∧
      login refEnv refBcrypt refJwt [alice] "a@x.com" (.string "wrong") 3 =
        login refEnv refBcrypt refJwt [alice] "nobody@x.com" (.string "wrong") 3 :=
  login_no_leak refEnv refBcrypt refJwt [alice] [alice] "a@x.com" "wrong"
    "nobody@x.com" (.string "wrong") 3 3 alice (by decide) (by decide) (by decide)

/-! ## The range of the passcode -/

/-- C10. For every draw `r` of `Math.random`, a binary64 number with `0 ≤ r < 1`, the
generated code `floor(100000 + r * 900000)`, computed in binary64, is an integer
between 100000 and 999999, with exactly six decimal digits, and every integer of that
range is generated by some draw of `[0, 1)`. -/
theorem genOtp_range :
    (∀ r : ℚ, IsDouble r → 0 ≤ r → r < 1 →
      100000 ≤ genOtp r ∧ genOtp r ≤ 999999 ∧
        (Nat.digits 10 (genOtp r).toNat).length = 6) ∧
    (∀ n : ℤ, 100000 ≤ n → n ≤ 999999 →
      ∃ r : ℚ, IsDouble r ∧ 0 ≤ r ∧ r < 1 ∧ genOtp r = n) := by
  constructor
  · intro r hr h0 h1
    have hr1 := hr.le_pred_one h1
    have hy0 : 0 ≤ roundDouble (r * 900000) :=
      le_roundDouble (by positivity) (isDouble_natCast (m := 0) (by norm_num))
        (by positivity)
    have hy1 : roundDouble (r * 900000) ≤ 900000 - 1 / 2 ^ 33 :=
      roundDouble_mul_lt (by positivity) (by linarith)
    have hb : IsDouble (((10 ^ 6 * 2 ^ 33 - 1 : ℕ) : ℚ) * 2 ^ (-33 : ℤ)) :=
      isDouble_natCast_mul _ (by norm_num) (by norm_num) (by norm_num)
    have hbv : ((10 ^ 6 * 2 ^ 33 - 1 : ℕ) : ℚ) * 2 ^ (-33 : ℤ) = 1000000 - 1 / 2 ^ 33 := by
      rw [zpow_neg]; norm_num
    rw [hbv] at hb
    have hs1 : roundDouble (100000 + roundDouble (r * 900000)) ≤ 1000000 - 1 / 2 ^ 33 :=
      roundDouble_le (by linarith) hb (by linarith)
    have hs0 : (100000 : ℚ) ≤ roundDouble (100000 + roundDouble (r * 900000)) := by
      have := le_roundDouble (x := 100000 + roundDouble (r * 900000)) (by linarith)
        (isDouble_natCast (m := 100000) (by norm_num)) (by push_cast; linarith)
      exact_mod_cast this
    have hlo : 100000 ≤ genOtp r := by
      unfold genOtp
      rw [Int.le_floor]
      exact_mod_cast hs0
    have hhi : genOtp r ≤ 999999 := by
      have : genOtp r < 1000000 := by
        unfold genOtp
        rw [Int.floor_lt]
        push_cast
        have : (0 : ℚ) < 1 / 2 ^ 33 := by positivity
        linarith
      omega
    refine ⟨hlo, hhi, ?_⟩
    have hn0 : (genOtp r).toNat ≠ 0 := by omega
    rw [Nat.digits_len 10 _ (by norm_num) hn0]
    have : Nat.log 10 (genOtp r).toNat = 5 := by
      rw [Nat.log_eq_iff (Or.inl (by norm_num))]
      constructor <;> omega
    omega
  · intro n hlo hhi
    obtain ⟨d, hd⟩ := Int.eq_ofNat_of_zero_le (show 0 ≤ n - 100000 by omega)
    have hd1 : d ≤ 899999 := by omega
    have hj : (d * 2 ^ 20 + 899999) / 900000 < 2 ^ 20 := by omega
    have hj1 : d * 2 ^ 20 ≤ 900000 * ((d * 2 ^ 20 + 899999) / 900000) := by omega
    have hj2 : 900000 * ((d * 2 ^ 20 + 899999) / 900000) < d * 2 ^ 20 + 900000 := by omega
    set j := (d * 2 ^ 20 + 899999) / 900000 with hjdef
    have hjq : (j : ℚ) < 2 ^ 20 := by exact_mod_cast hj
    have hj1q : (d : ℚ) * 2 ^ 20 ≤ 900000 * j := by exact_mod_cast hj1
    have hj2q : (900000 : ℚ) * j < d * 2 ^ 20 + 900000 := by exact_mod_cast hj2
    refine ⟨j / 2 ^ 20, ?_, by positivity, ?_, ?_⟩
    · refine ⟨j, -20, by omega, by norm_num, by norm_num, ?_⟩
      rw [zpow_neg]; norm_num; ring
    · rw [div_lt_one (by positivity)]; exact hjq
    · rw [genOtp_dyadic j hj]
      have hn : n = 100000 + d := by omega
      rw [hn, Int.floor_eq_iff]
      push_cast
      constructor
      · have : (d : ℚ) ≤ 900000 * j / 2 ^ 20 := by
          rw [le_div_iff₀ (by positivity)]; exact hj1q
        linarith
      · have : (900000 : ℚ) * j / 2 ^ 20 < d + 1 := by
          rw [div_lt_iff₀ (by positivity)]
          norm_num at hj2q ⊢
          linarith
        linarith

theorem genOtp_range_witness :
    (100000 ≤ genOtp (1 / 2) ∧ genOtp (1 / 2) ≤ 999999 ∧
        (Nat.digits 10 (genOtp (1 / 2)).toNat).length = 6) ∧
      ∃ r : ℚ, IsDouble r ∧ 0 ≤ r ∧ r < 1 ∧ genOtp r = 999999 :=
  ⟨genOtp_range.1 (1 / 2) ⟨1, -1, by norm_num, by norm_num, by norm_num, by
      rw [zpow_neg]; norm_num⟩ (by norm_num) (by norm_num),
    genOtp_range.2 999999 (by norm_num) (by norm_num)⟩

/-! ## The request route on concrete runs -/

/-- C1, at a collision of codes. Bob is issued the code 100000, then Alice requests a
passcode and is issued 100000 as well (the route answers 201). Her verification with
the code she was sent and her own email is answered 401 `Invalid OTP`: the lookup by
code alone returns the older document, which is Bob's. -/
theorem loginOtpVerify_rejects_fresh_code_on_collision (env : Env) (jwt : JwtLib) :
    loginOtp [alice, bob] (loginOtp [alice, bob] [] "b@x.com" 0 (.ok "250 OK") 0).2
        "a@x.com" 0 (.ok "250 OK") 5 =
      (⟨201, .otpSent "Otp successfully sended" ⟨"a@x.com", "100000", 5⟩⟩,
        [⟨"b@x.com", "100000", 0⟩, ⟨"a@x.com", "100000", 5⟩]) ∧
    loginOtpVerify env jwt [alice, bob]
        [⟨"b@x.com", "100000", 0⟩, ⟨"a@x.com", "100000", 5⟩] "100000" "a@x.com" 6 =
      (⟨401, .message "Invalid OTP"⟩,
        [⟨"b@x.com", "100000", 0⟩, ⟨"a@x.com", "100000", 5⟩]) := by
  constructor
  · have h₁ : loginOtp [alice, bob] [] "b@x.com" 0 (.ok "250 OK") 0 =
        (⟨201, .otpSent "Otp successfully sended" ⟨"b@x.com", "100000", 0⟩⟩,
          [⟨"b@x.com", "100000", 0⟩]) :=
      (loginOtp_run (u := bob) (by decide) genOtp_zero_string (by decide)
        (by decide)).trans (by decide)
    rw [h₁]
    exact (loginOtp_run (u := alice) (by decide) genOtp_zero_string (by decide)
      (by decide)).trans (by decide)
  · exact loginOtpVerify_of_other env jwt _ 6
      (d := ⟨"b@x.com", "100000", 0⟩) (by decide) (by decide)

/-- C6, as stated, fails. Alice holds an active passcode (issued at time 0). Her next
request, during which `sendMail` throws, is answered 500 and leaves the passcode
collection empty, not as it was: the active document is deleted before the send. -/
theorem loginOtp_send_failure_drops_active_code :
    (loginOtp [alice] [] "a@x.com" 0 (.ok "250 OK") 0).2 =
      [⟨"a@x.com", "100000", 0⟩] ∧
    loginOtp [alice] [⟨"a@x.com", "100000", 0⟩] "a@x.com" (1 / 2)
        (.error "connect ETIMEDOUT") 5 =
      (⟨500, .error (.transport "connect ETIMEDOUT")⟩, []) ∧
    (loginOtp [alice] [⟨"a@x.com", "100000", 0⟩] "a@x.com" (1 / 2)
        (.error "connect ETIMEDOUT") 5).2 ≠ [⟨"a@x.com", "100000", 0⟩] := by
  have h : loginOtp [alice] [⟨"a@x.com", "100000", 0⟩] "a@x.com" (1 / 2)
      (.error "connect ETIMEDOUT") 5 =
      (⟨500, .error (.transport "connect ETIMEDOUT")⟩, []) := by
    unfold loginOtp
    simp only [loginOtp_store_before_send]
    decide
  refine ⟨?_, h, ?_⟩
  · rw [loginOtp_run (u := alice) (by decide) genOtp_zero_string (by decide) (by decide)]
    decide
  · rw [h]
    decide

/-- C6, amended. When `sendMail` throws during a request for a registered email `e`,
the route answers 500 with the thrown message and creates no document: the passcode
collection is the one before the request without its first document for `e` (every
document of another email stays), and is unchanged when `e` had no document. -/
theorem loginOtp_send_failure (users : List User) (otps : List Otpdata) (e : String)
    (r : ℚ) (m : String) (now : Nat) (u : User)
    (hreg : User.findOne users e = some u) :
    loginOtp users otps e r (.error m) now =
        (⟨500, .error (.transport m)⟩, Otpdata.deleteOneByEmail otps e) ∧
      (Otpdata.deleteOneByEmail otps e).Sublist otps ∧
      (∀ d ∈ otps, d.email ≠ e → d ∈ Otpdata.deleteOneByEmail otps e) ∧
      (Otpdata.findOneByEmail otps e = none → Otpdata.deleteOneByEmail otps e = otps) := by
  refine ⟨?_, List.eraseP_sublist _, ?_, Otpdata.deleteOneByEmail_of_none⟩
  · unfold loginOtp
    simp only [loginOtp_store_before_send, hreg]
  · intro d hd hne
    unfold Otpdata.deleteOneByEmail
    rw [List.mem_eraseP_of_neg (by simpa using hne)]
    exact hd

theorem loginOtp_send_failure_witness :
    loginOtp [alice, bob] [⟨"b@x.com", "100000", 0⟩] "a@x.com" 0
        (.error "connect ETIMEDOUT") 5 =
      (⟨500, .error (.transport "connect ETIMEDOUT")⟩,
        Otpdata.deleteOneByEmail [⟨"b@x.com", "100000", 0⟩] "a@x.com") :=
  (loginOtp_send_failure [alice, bob] [⟨"b@x.com", "100000", 0⟩] "a@x.com" 0
    "connect ETIMEDOUT" 5 alice (by decide)).1

/-- C7, on two draws. Two runs of the request route that differ in the draw alone
answer with different bodies: the body carries the stored document, code included. -/
theorem loginOtp_response_carries_code :
    (loginOtp [alice] [] "a@x.com" 0 (.ok "250 OK") 5).1 =
      ⟨201, .otpSent "Otp successfully sended" ⟨"a@x.com", "100000", 5⟩⟩ ∧
    (loginOtp [alice] [] "a@x.com" (1 / 2) (.ok "250 OK") 5).1 =
      ⟨201, .otpSent "Otp successfully sended" ⟨"a@x.com", "550000", 5⟩⟩ ∧
    (loginOtp [alice] [] "a@x.com" 0 (.ok "250 OK") 5).1 ≠
      (loginOtp [alice] [] "a@x.com" (1 / 2) (.ok "250 OK") 5).1 := by
  have h0 : (loginOtp [alice] [] "a@x.com" 0 (.ok "250 OK") 5).1 =
      ⟨201, .otpSent "Otp successfully sended" ⟨"a@x.com", "100000", 5⟩⟩ := by
    rw [loginOtp_run (u := alice) (by decide) genOtp_zero_string (by decide) (by decide)]
  have h1 : (loginOtp [alice] [] "a@x.com" (1 / 2) (.ok "250 OK") 5).1 =
      ⟨201, .otpSent "Otp successfully sended" ⟨"a@x.com", "550000", 5⟩⟩ := by
    rw [loginOtp_run (u := alice) (by decide) genOtp_half_string (by decide) (by decide)]
  refine ⟨h0, h1, ?_⟩
  rw [h0, h1]
  decide

/-! ## Expiry -/

/-- C5, as stated, fails: a document created at time 0 and still in the collection is
accepted by a verification at time 600. -/
theorem loginOtpVerify_accepts_unswept_expired_code :
    (loginOtpVerify refEnv refJwt [alice] [⟨"a@x.com", "123456", 0⟩]
      "123456" "a@x.com" 600).1.status = 201 := by
  decide

/-- C5, amended. Once a pass of the TTL monitor has run 600 seconds or more after the
creation of a passcode document, on a collection that respects its unique index, a
verification with that document's code and email is answered 401 `Invalid OTP`. -/
theorem loginOtpVerify_after_ttlSweep (env : Env) (jwt : JwtLib) (users : List User)
    (otps : List Otpdata) (d : Otpdata) (sweptAt now : Nat)
    (huniq : Otpdata.uniqueEmail otps) (hd : d ∈ otps)
    (hexp : d.createdAt + 600 ≤ sweptAt) :
    loginOtpVerify env jwt users (Otpdata.ttlSweep sweptAt otps) d.otp d.email now =
      (⟨401, .message "Invalid OTP"⟩, Otpdata.ttlSweep sweptAt otps) := by
  cases hf : Otpdata.findOneByOtp (Otpdata.ttlSweep sweptAt otps) d.otp with
  | none => exact loginOtpVerify_of_none env jwt users d.email now hf
  | some d' =>
    refine loginOtpVerify_of_other env jwt users now hf ?_
    intro he
    have hm : d' ∈ Otpdata.ttlSweep sweptAt otps := (Otpdata.findOneByOtp_mem hf).1
    simp only [Otpdata.ttlSweep, List.mem_filter, decide_eq_true_eq] at hm
    have : d' = d := Otpdata.uniqueEmail_eq huniq hm.1 hd he
    subst this
    omega

theorem loginOtpVerify_after_ttlSweep_witness :
    loginOtpVerify refEnv refJwt [alice]
        (Otpdata.ttlSweep 600 [⟨"a@x.com", "123456", 0⟩, ⟨"b@x.com", "123456", 1⟩])
        "123456" "a@x.com" 600 =
      (⟨401, .message "Invalid OTP"⟩,
        Otpdata.ttlSweep 600 [⟨"a@x.com", "123456", 0⟩, ⟨"b@x.com", "123456", 1⟩]) :=
  loginOtpVerify_after_ttlSweep refEnv refJwt [alice]
    [⟨"a@x.com", "123456", 0⟩, ⟨"b@x.com", "123456", 1⟩] ⟨"a@x.com", "123456", 0⟩
    600 600 (by decide) (by decide) (by decide)

/-! ## Supersession -/

/-- C4, as stated, fails: when the two draws give the same code, the verification
with the code of the first request is answered 201. -/
theorem loginOtpVerify_accepts_first_code_when_redrawn :
    (loginOtp [alice] [] "a@x.com" 0 (.ok "250 OK") 0).1.status = 201 ∧
    (loginOtp [alice] (loginOtp [alice] [] "a@x.com" 0 (.ok "250 OK") 0).2
      "a@x.com" 0 (.ok "250 OK") 1).1.status = 201 ∧
    (loginOtpVerify refEnv refJwt [alice]
      (loginOtp [alice] (loginOtp [alice] [] "a@x.com" 0 (.ok "250 OK") 0).2
        "a@x.com" 0 (.ok "250 OK") 1).2
      (toString (genOtp 0)) "a@x.com" 2).1.status = 201 := by
  have h₁ : loginOtp [alice] [] "a@x.com" 0 (.ok "250 OK") 0 =
      (⟨201, .otpSent "Otp successfully sended" ⟨"a@x.com", "100000", 0⟩⟩,
        [⟨"a@x.com", "100000", 0⟩]) :=
    (loginOtp_run (u := alice) (by decide) genOtp_zero_string (by decide)
      (by decide)).trans (by decide)
  have h₂ : loginOtp [alice] [⟨"a@x.com", "100000", 0⟩] "a@x.com" 0 (.ok "250 OK") 1 =
      (⟨201, .otpSent "Otp successfully sended" ⟨"a@x.com", "100000", 1⟩⟩,
        [⟨"a@x.com", "100000", 1⟩]) :=
    (loginOtp_run (u := alice) (by decide) genOtp_zero_string (by decide)
      (by decide)).trans (by decide)
  rw [h₁, h₂, genOtp_zero_string]
  decide

/-- C4, amended. On a passcode collection that respects its unique index on `email`:
the request route and the verification route keep the index (at most one document
per email); after two requests for `e` that both answer 201, with no verification in
between, the collection holds exactly one document for `e`, carrying the second code;
and when the first code differs from the second, a verification with the first code
and `e` is answered 401 `Invalid OTP`. -/
theorem loginOtp_supersedes (env : Env) (jwt : JwtLib) (users : List User)
    (otps : List Otpdata) (huniq : Otpdata.uniqueEmail otps) :
    (∀ e r m t, Otpdata.uniqueEmail (loginOtp users otps e r m t).2) ∧
    (∀ o e t, Otpdata.uniqueEmail (loginOtpVerify env jwt users otps o e t).2) ∧
    ∀ e r₁ r₂ m₁ m₂ t₁ t₂ t₃,
      (loginOtp users otps e r₁ m₁ t₁).1.status = 201 →
      (loginOtp users (loginOtp users otps e r₁ m₁ t₁).2 e r₂ m₂ t₂).1.status = 201 →
      (loginOtp users (loginOtp users otps e r₁ m₁ t₁).2 e r₂ m₂ t₂).2.filter
          (fun d => d.email == e) = [⟨e, toString (genOtp r₂), t₂⟩] ∧
      (toString (genOtp r₁) ≠ toString (genOtp r₂) →
        loginOtpVerify env jwt users
            (loginOtp users (loginOtp users otps e r₁ m₁ t₁).2 e r₂ m₂ t₂).2
            (toString (genOtp r₁)) e t₃ =
          (⟨401, .message "Invalid OTP"⟩,
            (loginOtp users (loginOtp users otps e r₁ m₁ t₁).2 e r₂ m₂ t₂).2)) := by
  refine ⟨fun e r m t => loginOtp_uniqueEmail users e r m t huniq,
    fun o e t => loginOtpVerify_uniqueEmail env jwt users o e t huniq, ?_⟩
  intro e r₁ r₂ m₁ m₂ t₁ t₂ t₃ h₁ h₂
  obtain ⟨hnone, hstore⟩ := loginOtp_twice h₁ h₂
  have hno := Otpdata.findOneByEmail_eq_none.mp hnone
  rw [hstore]
  constructor
  · rw [List.filter_append]
    have : (Otpdata.deleteOneByEmail otps e).filter (fun d => d.email == e) = [] := by
      rw [List.filter_eq_nil_iff]
      intro a ha
      simpa using hno a ha
    simp [this]
  · intro hne
    cases hf : Otpdata.findOneByOtp
        (Otpdata.deleteOneByEmail otps e ++ [⟨e, toString (genOtp r₂), t₂⟩])
        (toString (genOtp r₁)) with
    | none => exact loginOtpVerify_of_none env jwt users e t₃ hf
    | some d =>
      refine loginOtpVerify_of_other env jwt users t₃ hf ?_
      obtain ⟨hm, ho⟩ := Otpdata.findOneByOtp_mem hf
      rcases List.mem_append.mp hm with hm | hm
      · exact hno d hm
      · rw [List.mem_singleton] at hm
        subst hm
        exact absurd ho.symm hne

theorem loginOtp_supersedes_witness :
    (loginOtp [alice] (loginOtp [alice] [⟨"b@x.com", "100000", 0⟩] "a@x.com" 0
        (.ok "250 OK") 1).2 "a@x.com" (1 / 2) (.ok "250 OK") 2).2.filter
          (fun d => d.email == "a@x.com") =
        [⟨"a@x.com", toString (genOtp (1 / 2)), 2⟩] ∧
      loginOtpVerify refEnv refJwt [alice]
          (loginOtp [alice] (loginOtp [alice] [⟨"b@x.com", "100000", 0⟩] "a@x.com" 0
            (.ok "250 OK") 1).2 "a@x.com" (1 / 2) (.ok "250 OK") 2).2
          (toString (genOtp 0)) "a@x.com" 3 =
        (⟨401, .message "Invalid OTP"⟩,
          (loginOtp [alice] (loginOtp [alice] [⟨"b@x.com", "100000", 0⟩] "a@x.com" 0
            (.ok "250 OK") 1).2 "a@x.com" (1 / 2) (.ok "250 OK") 2).2) :=
  have h₁ : loginOtp [alice] [⟨"b@x.com", "100000", 0⟩] "a@x.com" 0 (.ok "250 OK") 1 =
      (⟨201, .otpSent "Otp successfully sended" ⟨"a@x.com", "100000", 1⟩⟩,
        [⟨"b@x.com", "100000", 0⟩, ⟨"a@x.com", "100000", 1⟩]) :=
    (loginOtp_run (u := alice) (by decide) genOtp_zero_string (by decide)
      (by decide)).trans (by decide)
  have h := (loginOtp_supersedes refEnv refJwt [alice] [⟨"b@x.com", "100000", 0⟩]
    (by decide)).2.2 "a@x.com" 0 (1 / 2) (.ok "250 OK") (.ok "250 OK") 1 2 3
    (by rw [h₁])
    (by rw [h₁, loginOtp_run (u := alice) (by decide) genOtp_half_string (by decide)
      (by decide)])
  ⟨h.1, h.2 (by rw [genOtp_zero_string, genOtp_half_string]; decide)⟩

/-! ## Register, login, authenticated request -/

/-- C9. Register/login round trip. With a non-empty signing secret configured,
libraries that honour their contracts, a non-empty name and email, and an email and
`ObjectId` not yet in the user collection: `register` answers 201 and stores the
user; a login with the same email and password then answers 200 with the token
that `jwt.sign` issued for that user for 3600 seconds; and the middleware, given
`Bearer <token>` before the expiry, calls `next()` with `req.user` the registered
user. -/
theorem register_login_roundtrip (env : Env) (bcrypt : BcryptLib) (jwt : JwtLib)
    (users : List User) (oid salt : Nat) (name email password secret : String)
    (tLogin tUse : Nat)
    (hsecret : env.JWT_SECRET = some secret) (hnonempty : secret ≠ "")
    (hbcrypt : bcrypt.Sound) (hjwt : jwt.Sound) (hcompact : jwt.Compact)
    (hname : name ≠ "") (hemail : email ≠ "")
    (hfresh : User.findOne users email = none)
    (hoid : User.findById users oid = none)
    (htime : tUse < tLogin + 3600) :
    register bcrypt users oid salt name email password =
        (⟨201, .registered "User registered successfully"
            ⟨oid, name, email, bcrypt.hash password 10 salt⟩⟩,
          users ++ [⟨oid, name, email, bcrypt.hash password 10 salt⟩]) ∧
      ∃ token, jwt.sign oid secret 3600 tLogin = some token ∧
        login env bcrypt jwt (register bcrypt users oid salt name email password).2
            email (.string password) tLogin =
          ⟨200, .token token⟩ ∧
        authMiddleware env jwt (register bcrypt users oid salt name email password).2
            (some ("Bearer " ++ token)) tUse =
          .next (some ⟨oid, name, email, bcrypt.hash password 10 salt⟩) := by
  obtain ⟨hne, hcmp⟩ := hbcrypt password 10 salt
  obtain ⟨token, hsign, hverify⟩ := hjwt oid secret 3600 tLogin hnonempty
  obtain ⟨htok, hspace⟩ := hcompact oid secret 3600 tLogin token hsign
  have hreg : register bcrypt users oid salt name email password =
      (⟨201, .registered "User registered successfully"
          ⟨oid, name, email, bcrypt.hash password 10 salt⟩⟩,
        users ++ [⟨oid, name, email, bcrypt.hash password 10 salt⟩]) := by
    simp [register, User.create, User.invalidPaths, requiredOk, hname, hemail, hne,
      hfresh, hoid]
  refine ⟨hreg, token, hsign, ?_, ?_⟩
  · rw [hreg]
    simp [login, bcryptCompare, jwtSign, User.findOne_append_new _ hfresh, hcmp,
      Env.secretTemplate, hsecret, hnonempty, hsign]
  · rw [hreg]
    simp [authMiddleware, jwtVerify, bearerToken_bearer _ hspace, htok, hsecret,
      hnonempty, hverify tUse htime, User.findById_append_new _ hoid]

theorem register_login_roundtrip_witness :
    register refBcrypt [alice] 2 7 "B" "b@x.com" "q" =
        (⟨201, .registered "User registered successfully"
            ⟨2, "B", "b@x.com", refBcrypt.hash "q" 10 7⟩⟩,
          [alice] ++ [⟨2, "B", "b@x.com", refBcrypt.hash "q" 10 7⟩]) ∧
      ∃ token, refJwt.sign 2 "s3cret" 3600 10 = some token ∧
        login refEnv refBcrypt refJwt
            (register refBcrypt [alice] 2 7 "B" "b@x.com" "q").2
            "b@x.com" (.string "q") 10 =
          ⟨200, .token token⟩ ∧
        authMiddleware refEnv refJwt
            (register refBcrypt [alice] 2 7 "B" "b@x.com" "q").2
            (some ("Bearer " ++ token)) 20 =
          .next (some ⟨2, "B", "b@x.com", refBcrypt.hash "q" 10 7⟩) :=
  register_login_roundtrip refEnv refBcrypt refJwt [alice] 2 7 "B" "b@x.com" "q"
    "s3cret" 10 20 rfl (by decide) refBcrypt_sound refJwt_sound refJwt_compact
    (by decide) (by decide) (by decide) (by decide) (by decide)

end ElectroKart
